import Mathlib

/-!
Verification of the streaming response consumption engine of the
langraph-rag frontend: the SSE streaming client
(`ai-chatbot-fe/src/lib/streaming-client.ts`) and the chat view's
session-handling code (`ChatInterface` with `useTokenBatcher`).

The embedding is shallow: byte streams are `List Nat` (byte values),
decoded text is `List Nat` (Unicode code points), the platform
`TextDecoder` used with `stream: true` is modelled as an incremental
UTF-8 decoder (`decodeOne` / `utf8Run`), and `JSON.parse` is modelled
as an arbitrary parameter `parse : List Nat → Option α`: the client
code treats the parsed value opaquely, so the stream-processing
theorems quantify over the parse function.
-/

namespace StreamingClient

/-- Result of examining the head of a byte list for one UTF-8 scalar:
either a decoded code point consuming `k` bytes, a request for more
input (the bytes are an incomplete head of a valid sequence), or an
invalid sequence whose first `k` bytes are replaced by U+FFFD.
Models one step of the platform `TextDecoder`. -/
inductive DecStep where
  | emit (cp : Nat) (k : Nat)
  | needMore
  | bad (k : Nat)
deriving DecidableEq, Repr

/-- Lower bound for the second byte of a three-byte sequence
(0xE0 forbids overlong encodings). -/
def snd3Lo (b : Nat) : Nat := if b = 0xE0 then 0xA0 else 0x80

/-- Upper bound for the second byte of a three-byte sequence
(0xED excludes surrogates). -/
def snd3Hi (b : Nat) : Nat := if b = 0xED then 0x9F else 0xBF

/-- Lower bound for the second byte of a four-byte sequence. -/
def snd4Lo (b : Nat) : Nat := if b = 0xF0 then 0x90 else 0x80

/-- Upper bound for the second byte of a four-byte sequence
(0xF4 caps code points at U+10FFFF). -/
def snd4Hi (b : Nat) : Nat := if b = 0xF4 then 0x8F else 0xBF

/-- Decode one UTF-8 scalar from the head of a byte list, WHATWG style:
`needMore` exactly when the whole input is an incomplete valid head. -/
def decodeOne : List Nat → DecStep
  | [] => .needMore
  | b :: t =>
    if b ≤ 0x7F then .emit b 1
    else if 0xC2 ≤ b ∧ b ≤ 0xDF then
      match t with
      | [] => .needMore
      | b2 :: _ =>
        if 0x80 ≤ b2 ∧ b2 ≤ 0xBF then .emit ((b - 0xC0) * 0x40 + (b2 - 0x80)) 2
        else .bad 1
    else if 0xE0 ≤ b ∧ b ≤ 0xEF then
      match t with
      | [] => .needMore
      | b2 :: t2 =>
        if snd3Lo b ≤ b2 ∧ b2 ≤ snd3Hi b then
          match t2 with
          | [] => .needMore
          | b3 :: _ =>
            if 0x80 ≤ b3 ∧ b3 ≤ 0xBF then
              .emit ((b - 0xE0) * 0x1000 + (b2 - 0x80) * 0x40 + (b3 - 0x80)) 3
            else .bad 2
        else .bad 1
    else if 0xF0 ≤ b ∧ b ≤ 0xF4 then
      match t with
      | [] => .needMore
      | b2 :: t2 =>
        if snd4Lo b ≤ b2 ∧ b2 ≤ snd4Hi b then
          match t2 with
          | [] => .needMore
          | b3 :: t3 =>
            if 0x80 ≤ b3 ∧ b3 ≤ 0xBF then
              match t3 with
              | [] => .needMore
              | b4 :: _ =>
                if 0x80 ≤ b4 ∧ b4 ≤ 0xBF then
                  .emit ((b - 0xF0) * 0x40000 + (b2 - 0x80) * 0x1000 +
                         (b3 - 0x80) * 0x40 + (b4 - 0x80)) 4
                else .bad 3
            else .bad 2
        else .bad 1
    else .bad 1

/-- Fuel-bounded incremental UTF-8 decode loop; the fuel only bounds the
number of steps and is irrelevant once it reaches the input length. -/
def utf8RunF : Nat → List Nat → List Nat × List Nat
  | 0, x => ([], x)
  | fuel + 1, x =>
    match decodeOne x with
    | .needMore => ([], x)
    | .emit c k => ((c :: (utf8RunF fuel (x.drop k)).1), (utf8RunF fuel (x.drop k)).2)
    | .bad k => ((0xFFFD :: (utf8RunF fuel (x.drop k)).1), (utf8RunF fuel (x.drop k)).2)

/-- Incremental UTF-8 decode: greedily decode scalars from the front,
returning the emitted code points and the undecodable trailing bytes
(the pending state the platform `TextDecoder` keeps between `decode`
calls made with `stream: true`). -/
def utf8Run (x : List Nat) : List Nat × List Nat := utf8RunF x.length x

/-- Model of `buffer.split('\n\n'); buffer = events.pop()` in
`processStream`: split a code-point list at blank lines (two
consecutive newlines, leftmost-first), returning the completed frames
and the trailing carry-over kept in the buffer. -/
def splitBB : List Nat → List (List Nat) × List Nat
  | [] => ([], [])
  | [c] => ([], [c])
  | c :: d :: r =>
    if c = 10 ∧ d = 10 then
      ([] :: (splitBB r).1, (splitBB r).2)
    else
      match (splitBB (d :: r)).1 with
      | [] => ([], c :: (splitBB (d :: r)).2)
      | f :: ft => ((c :: f) :: ft, (splitBB (d :: r)).2)

/-- Model of `eventText.split('\n')` inside `processStream`: split a
frame's text at single newlines. -/
def splitNL : List Nat → List (List Nat)
  | [] => [[]]
  | c :: r =>
    if c = 10 then [] :: splitNL r
    else
      match splitNL r with
      | [] => [[c]]
      | h :: t => (c :: h) :: t

/-- JavaScript whitespace characters relevant to `String.trim` on this
protocol's ASCII frame text (space, tab, newline, carriage return,
form feed, vertical tab). -/
def isWS (c : Nat) : Bool := c = 32 || c = 9 || c = 10 || c = 13 || c = 12 || c = 11

/-- The six code points of the SSE data-field marker 'data: ' checked by
`line.startsWith('data: ')`. -/
def dataMarker : List Nat := [100, 97, 116, 97, 58, 32]

/-- Model of the per-line branch of `processStream`: a line starting
with 'data: ' has its payload (the text after the first six characters,
JavaScript `line.substring(6)`) handed to `JSON.parse`; a successful
parse yields an event, a parse failure is caught and logged, producing
nothing; all other lines produce nothing. -/
def lineEvent {α : Type} (parse : List Nat → Option α) (line : List Nat) : Option α :=
  if dataMarker.isPrefixOf line then parse (line.drop 6) else none

/-- Model of the per-frame branch of `processStream`: a frame whose text
trims to empty is skipped (`!eventText.trim()`), a frame whose first
character is ':' is skipped whole (`eventText.startsWith(':')`), and
otherwise every line of the frame is examined for a data payload. -/
def frameEvents {α : Type} (parse : List Nat → Option α) (f : List Nat) : List α :=
  if f.all isWS then []
  else if f.head? = some 58 then []
  else (splitNL f).filterMap (lineEvent parse)

/-- Data-line payloads of one frame, in order (the inputs `processStream`
hands to `JSON.parse`). -/
def framePayloads (f : List Nat) : List (List Nat) :=
  if f.all isWS then []
  else if f.head? = some 58 then []
  else (splitNL f).filterMap
    (fun line => if dataMarker.isPrefixOf line then some (line.drop 6) else none)

/-- Per-read-loop-iteration state of `processStream`: the pending bytes
inside the `TextDecoder` and the carry-over text buffer. -/
structure PState where
  pend : List Nat
  buf : List Nat
deriving DecidableEq, Repr

/-- One iteration of the `processStream` read loop on one network chunk:
decode the chunk (with the decoder's pending bytes), append the decoded
text to the carry-over buffer, split off completed frames, and emit
their events; the last (possibly incomplete) piece stays buffered. -/
def stepChunk {α : Type} (parse : List Nat → Option α) (st : PState)
    (chunk : List Nat) : PState × List α :=
  ((⟨(utf8Run (st.pend ++ chunk)).2,
     (splitBB (st.buf ++ (utf8Run (st.pend ++ chunk)).1)).2⟩ : PState),
   ((splitBB (st.buf ++ (utf8Run (st.pend ++ chunk)).1)).1.map (frameEvents parse)).flatten)

/-- The read loop of `processStream` over a list of network chunks,
threading the decoder/buffer state and accumulating events in order. -/
def runChunks {α : Type} (parse : List Nat → Option α) (st : PState) :
    List (List Nat) → PState × List α
  | [] => (st, [])
  | c :: cs =>
    ((runChunks parse (stepChunk parse st c).1 cs).1,
     (stepChunk parse st c).2 ++ (runChunks parse (stepChunk parse st c).1 cs).2)

/-- Model of `processStream`: the ordered list of events dispatched to
`handleEvent` when the response body delivers the given chunks and the
transport then reports end-of-stream.  The final state (pending decoder
bytes and any trailing partial frame) is discarded, exactly as the code
drops `buffer` when `done` becomes true. -/
def processStream {α : Type} (parse : List Nat → Option α)
    (chunks : List (List Nat)) : List α :=
  (runChunks parse ⟨[], []⟩ chunks).2

/-- Data-line payloads of a whole stream, in order: the inputs that
`processStream` hands to `JSON.parse` over the stream's lifetime. -/
def streamPayloads (chunks : List (List Nat)) : List (List Nat) :=
  ((splitBB (utf8Run chunks.flatten).1).1.map framePayloads).flatten

/-- Discriminated payload union carried by a stream event, mirroring the
per-type `data` shapes of the wire protocol (`token` carries a raw
string delta, `error` carries message/code/recoverable, and so on). -/
inductive EData where
  | str (s : String)
  | statusD (status message : String)
  | progressD (tokens time estRemaining : Int)
  | completeD (totalTime totalTokens : Int) (provider status : String)
  | errorD (message code : String) (recoverable : Bool)
  | json (s : String)
deriving DecidableEq, Repr

/-- Model of the parsed `StreamEvent` interface: a type tag (an arbitrary
string, as delivered by `JSON.parse`), the payload, and the timestamp. -/
structure SEvent where
  type : String
  data : EData
  timestamp : String
deriving DecidableEq, Repr

/-- The values of the exported `StreamEventType` constant object, in
source order. -/
def StreamEventTypeVals : List String :=
  ["status", "token", "sources", "progress", "complete", "error", "metadata"]

/-- One invocation of an optional UI handler, carrying the payload the
client passes to it. -/
inductive HCall where
  | onToken (d : EData)
  | onStatus (d : EData)
  | onProgress (d : EData)
  | onComplete (d : EData)
  | onError (d : EData)
  | onMetadata (d : EData)
deriving DecidableEq, Repr

/-- Model of `handleEvent`: route a parsed event to the matching
handler by its `type` tag, in the switch's source order; an
unrecognized type reaches the default branch, which only logs a
warning and calls no handler. -/
def handleEvent (e : SEvent) : Option HCall :=
  if e.type = "token" then some (.onToken e.data)
  else if e.type = "status" then some (.onStatus e.data)
  else if e.type = "progress" then some (.onProgress e.data)
  else if e.type = "complete" then some (.onComplete e.data)
  else if e.type = "error" then some (.onError e.data)
  else if e.type = "metadata" then some (.onMetadata e.data)
  else none

/-- Recognizer for `onError` handler invocations. -/
def isErrCall : HCall → Bool
  | .onError _ => true
  | _ => false

/-- Model of the `StreamingChatClient` cancellation state: the
`abortController` field, `null` when no stream is active. -/
structure ClientCtrl where
  abortController : Option Nat
deriving DecidableEq, Repr

/-- Model of the `abort()` method: if a controller exists it is aborted
and the field is cleared; otherwise nothing happens. -/
def clientAbort (c : ClientCtrl) : ClientCtrl :=
  match c.abortController with
  | some _ => ⟨none⟩
  | none => ⟨none⟩

/-- Model of the `isStreaming()` method: a stream is active exactly when
an abort controller is held. -/
def isStreaming (c : ClientCtrl) : Bool := c.abortController.isSome

/-- How a `streamMessage` invocation's try block ends: normal
end-of-stream, or an exception whose `name` distinguishes a manual
abort, a timeout from the composite signal, or any other failure. -/
inductive RunEnd where
  | endOfStream
  | abortError
  | timeoutError
  | otherError (msg : String)
deriving DecidableEq, Repr

/-- Model of the catch block of `streamMessage`: an `AbortError` is
logged and produces no handler call; a `TimeoutError` produces one
`onError` with a TIMEOUT-coded recoverable payload; any other error
produces one `onError` with a non-recoverable CLIENT_ERROR payload. -/
def catchCalls (timeoutMs : Nat) : RunEnd → List HCall
  | .endOfStream => []
  | .abortError => []
  | .timeoutError =>
    [.onError (.errorD
      ("Request timed out after " ++ toString (timeoutMs / 1000) ++ " seconds")
      "TIMEOUT" true)]
  | .otherError m => [.onError (.errorD m "CLIENT_ERROR" false)]

/-- Whether `streamMessage`'s promise rejects: the catch block re-throws
every caught error, so any abnormal end rejects the promise. -/
def runRejects : RunEnd → Bool
  | .endOfStream => false
  | _ => true

/-- All handler calls a `streamMessage` invocation makes: the dispatched
calls for the events decoded from the chunks read before the run ended,
followed by the catch block's calls. -/
def streamMessageCalls (timeoutMs : Nat) (parse : List Nat → Option SEvent)
    (chunks : List (List Nat)) (e : RunEnd) : List HCall :=
  (processStream parse chunks).filterMap handleEvent ++ catchCalls timeoutMs e

end StreamingClient

namespace Chat

/-- State owned by `useTokenBatcher`: the pending (unflushed) token text
and whether an animation-frame flush is currently scheduled. -/
structure BatcherState where
  pendingTokens : String
  rafScheduled : Bool
deriving DecidableEq, Repr

/-- Model of the batcher's `reset()`: cancel any scheduled flush and
clear the pending buffer. -/
def batcherReset (_b : BatcherState) : BatcherState := ⟨"", false⟩

/-- UI and session state of `ChatInterface`: the React state hooks, the
`currentSessionRef`, the module-level `streamSessionId` counter, and the
token batcher's refs. -/
structure ChatState where
  messageText : String
  streamingResponse : String
  pendingMessage : Option String
  streamingStatus : Option String
  streamError : Option String
  currentSession : Nat
  streamSessionId : Nat
  batcher : BatcherState
deriving DecidableEq, Repr

/-- Model of the batcher's `flush`: when pending text exists, append it
to the displayed streaming response in one update and clear the buffer;
either way the scheduled-flush slot is cleared. -/
def flushH (st : ChatState) : ChatState :=
  if st.batcher.pendingTokens = "" then
    { st with batcher := ⟨st.batcher.pendingTokens, false⟩ }
  else
    { st with
        streamingResponse := st.streamingResponse ++ st.batcher.pendingTokens,
        batcher := ⟨"", false⟩ }

/-- JavaScript `!message.trim()` as a predicate: every character of the
string is trim-removable whitespace (so the trimmed string is empty);
the protocol-relevant whitespace characters are modelled. -/
def trimEmpty (s : String) : Bool :=
  s.toList.all fun c =>
    c = ' ' || c = '\t' || c = '\n' || c = '\r' || c = '\x0b' || c = '\x0c'

/-- Model of the synchronous part of `handleSubmit`: an empty trimmed
message or an in-progress stream returns early with nothing changed and
`streamMessage` not called (second component `false`); otherwise a new
session is minted (increment `streamSessionId`, capture it in
`currentSessionRef`), the input is cleared, the pending user message is
shown, the response display is reset, status becomes starting, the
error banner is cleared, and the batcher is reset. -/
def handleSubmit (st : ChatState) (streaming : Bool) : ChatState × Bool :=
  if trimEmpty st.messageText ∨ streaming then (st, false)
  else
    ({ st with
        messageText := "",
        pendingMessage := some st.messageText.trim,
        streamingResponse := "",
        streamingStatus := some "starting",
        streamError := none,
        streamSessionId := st.streamSessionId + 1,
        currentSession := st.streamSessionId + 1,
        batcher := batcherReset st.batcher }, true)

/-- Model of the `onToken` handler bound to session `s`: a stale session
returns without touching anything; otherwise the token is appended to
the batcher's pending buffer (scheduling a flush) and the error banner
is cleared. -/
def onTokenH (s : Nat) (tok : String) (st : ChatState) : ChatState :=
  if st.currentSession ≠ s then st
  else
    { st with
        batcher := ⟨st.batcher.pendingTokens ++ tok, true⟩,
        streamError := none }

/-- Model of the `onStatus` handler bound to session `s`. -/
def onStatusH (s : Nat) (status : String) (st : ChatState) : ChatState :=
  if st.currentSession ≠ s then st
  else { st with streamingStatus := some status }

/-- Model of the `onProgress` handler: it only logs to the console and
mutates no UI state. -/
def onProgressH (_s : Nat) (st : ChatState) : ChatState := st

/-- Model of the part of `onComplete` before its `await refetch()`: the
guard that ignores a stale stream completion. -/
def onCompleteCheck (s : Nat) (st : ChatState) : Bool :=
  st.currentSession = s

/-- Model of the continuation of `onComplete` after `await refetch()`:
the session comparison is evaluated again against the state current at
resume time; only when the session is still current are the streaming
status, response, pending message and error cleared. -/
def onCompleteResume (s : Nat) (st : ChatState) : ChatState :=
  if st.currentSession ≠ s then st
  else
    { st with
        streamingStatus := none,
        streamingResponse := "",
        pendingMessage := none,
        streamError := none }

/-- Model of the `onError` handler bound to session `s`. -/
def onErrorH (s : Nat) (msg : String) (st : ChatState) : ChatState :=
  if st.currentSession ≠ s then st
  else
    { st with
        streamingStatus := some "error",
        streamError := some msg,
        streamingResponse := "",
        pendingMessage := none }

/-- Model of the banner-clearing `setTimeout` body scheduled by
`onError`, which re-checks the session before clearing. -/
def onErrorTimeoutH (s : Nat) (st : ChatState) : ChatState :=
  if st.currentSession ≠ s then st
  else { st with streamingStatus := none, streamError := none }

/-- One step of a single-session token/flush interleaving: either
`onToken` (guard included) delivers a token, or a scheduled flush
fires. -/
inductive TOp where
  | tok (t : String)
  | flush
deriving DecidableEq, Repr

/-- Run one trace operation. -/
def tStep (s : Nat) (st : ChatState) : TOp → ChatState
  | .tok t => onTokenH s t st
  | .flush => flushH st

/-- The tokens delivered by a trace, in arrival order. -/
def tToks : List TOp → List String
  | [] => []
  | .tok t :: r => t :: tToks r
  | .flush :: r => tToks r

end Chat

open StreamingClient Chat

/-- Concrete parse function used for the C4 scenario: the payload 'x'
parses to the event value 7, everything else fails to parse. -/
def parseC4 : List Nat → Option Nat :=
  fun p => if p = [120] then some 7 else none

/-- Concrete parse function used for the C7 scenario: the payload '1'
parses to the event value 1, everything else fails to parse. -/
def parseC7 : List Nat → Option Nat :=
  fun p => if p = [49] then some 1 else none

/-- Concrete parse function used for the C8 scenario: payload 'c' is a
complete event, payload 'k' is a token event, anything else fails. -/
def parseC8 : List Nat → Option SEvent :=
  fun p =>
    if p = [99] then some ⟨"complete", EData.completeD 0 5 "groq" "ok", "t0"⟩
    else if p = [107] then some ⟨"token", EData.str "k", "t1"⟩ else none

/-- Chat state of a superseded session used in the C1 scenario: the live
session counter has moved past session 1. -/
def c1StA : ChatState :=
  ⟨"", "partial reply", some "question", some "generating", none, 2, 2, ⟨"tok", true⟩⟩

/-- Chat state at the moment a new submission arrives, used in the C1
scenario. -/
def c1StB : ChatState :=
  ⟨"hi", "", none, none, none, 2, 2, ⟨"", false⟩⟩

/-- Token/flush interleaving used in the C2 scenario. -/
def c2Ops : List TOp :=
  [.tok "Hel", .flush, .tok "lo, ", .tok "wor", .flush, .tok "ld", .tok "!"]

/-- Fresh-session chat state used in the C2 scenario. -/
def c2St : ChatState :=
  ⟨"", "", some "question", some "generating", none, 1, 1, ⟨"", false⟩⟩

/-- Chat state with whitespace-only input used in the C10 scenario. -/
def c10St : ChatState :=
  ⟨" ", "shown", some "m", some "generating", some "err", 4, 4, ⟨"pend", true⟩⟩

namespace StreamingClient

/-- A successful decode consumes between one byte and the whole input. -/
theorem decodeOne_emit_bounds (x : List Nat) (c k : Nat) (h : decodeOne x = .emit c k) :
    0 < k ∧ k ≤ x.length := by
  match x with
  | [] => simp [decodeOne] at h
  | [b] =>
    simp only [decodeOne] at h
    split_ifs at h <;> simp_all <;> omega
  | [b, b2] =>
    simp only [decodeOne] at h
    split_ifs at h <;> simp_all <;> omega
  | [b, b2, b3] =>
    simp only [decodeOne] at h
    split_ifs at h <;> simp_all <;> omega
  | b :: b2 :: b3 :: b4 :: r =>
    simp only [decodeOne] at h
    split_ifs at h <;> simp_all <;> omega

/-- An invalid-sequence verdict consumes between one byte and the whole input. -/
theorem decodeOne_bad_bounds (x : List Nat) (k : Nat) (h : decodeOne x = .bad k) :
    0 < k ∧ k ≤ x.length := by
  match x with
  | [] => simp [decodeOne] at h
  | [b] =>
    simp only [decodeOne] at h
    split_ifs at h <;> simp_all <;> omega
  | [b, b2] =>
    simp only [decodeOne] at h
    split_ifs at h <;> simp_all <;> omega
  | [b, b2, b3] =>
    simp only [decodeOne] at h
    split_ifs at h <;> simp_all <;> omega
  | b :: b2 :: b3 :: b4 :: r =>
    simp only [decodeOne] at h
    split_ifs at h <;> simp_all <;> omega

/-- A `decodeOne` verdict other than `needMore` is stable under appending
further bytes: the verdict was determined by bytes already present. -/
theorem decodeOne_stable (x y : List Nat) (h : decodeOne x ≠ .needMore) :
    decodeOne (x ++ y) = decodeOne x := by
  match x with
  | [] => simp [decodeOne] at h
  | [b] =>
    simp only [decodeOne, List.cons_append, List.nil_append] at h ⊢
    all_goals split_ifs at h ⊢ <;> first | rfl | exact absurd rfl h
  | [b, b2] =>
    simp only [decodeOne, List.cons_append, List.nil_append] at h ⊢
    all_goals split_ifs at h ⊢ <;> first | rfl | exact absurd rfl h
  | [b, b2, b3] =>
    simp only [decodeOne, List.cons_append, List.nil_append] at h ⊢
    all_goals split_ifs at h ⊢ <;> first | rfl | exact absurd rfl h
  | b :: b2 :: b3 :: b4 :: r =>
    simp only [decodeOne, List.cons_append, List.nil_append] at h ⊢
    all_goals split_ifs at h ⊢ <;> first | rfl | exact absurd rfl h

/-- The fuel of `utf8RunF` does not matter once it covers the input. -/
theorem utf8RunF_fuel_irrel : ∀ (f g : Nat) (x : List Nat),
    x.length ≤ f → x.length ≤ g → utf8RunF f x = utf8RunF g x
  | 0, g, x, hf, _ => by
    have hx : x = [] := by cases x <;> simp_all
    subst hx
    cases g <;> simp [utf8RunF, decodeOne]
  | f + 1, 0, x, _, hg => by
    have hx : x = [] := by cases x <;> simp_all
    subst hx
    simp [utf8RunF, decodeOne]
  | f + 1, g + 1, x, hf, hg => by
    cases h : decodeOne x with
    | needMore => simp [utf8RunF, h]
    | emit c k =>
      obtain ⟨hk1, hk2⟩ := decodeOne_emit_bounds x c k h
      have ih := utf8RunF_fuel_irrel f g (x.drop k)
        (by simp only [List.length_drop]; omega)
        (by simp only [List.length_drop]; omega)
      simp [utf8RunF, h, ih]
    | bad k =>
      obtain ⟨hk1, hk2⟩ := decodeOne_bad_bounds x k h
      have ih := utf8RunF_fuel_irrel f g (x.drop k)
        (by simp only [List.length_drop]; omega)
        (by simp only [List.length_drop]; omega)
      simp [utf8RunF, h, ih]

/-- Unfolding lemma for `utf8Run` in the `needMore` case. -/
theorem utf8Run_needMore (x : List Nat) (h : decodeOne x = .needMore) :
    utf8Run x = ([], x) := by
  cases x with
  | nil => rfl
  | cons a t => simp [utf8Run, utf8RunF, h]

/-- Unfolding lemma for `utf8Run` in the `emit` case. -/
theorem utf8Run_emit (x : List Nat) (c k : Nat) (h : decodeOne x = .emit c k) :
    utf8Run x = (c :: (utf8Run (x.drop k)).1, (utf8Run (x.drop k)).2) := by
  cases x with
  | nil => simp [decodeOne] at h
  | cons a t =>
    obtain ⟨hk1, hk2⟩ := decodeOne_emit_bounds (a :: t) c k h
    have ih := utf8RunF_fuel_irrel t.length ((a :: t).drop k).length ((a :: t).drop k)
      (by simp only [List.length_drop, List.length_cons] at *; omega) le_rfl
    simp [utf8Run, utf8RunF, h, ih]

/-- Unfolding lemma for `utf8Run` in the `bad` case. -/
theorem utf8Run_bad (x : List Nat) (k : Nat) (h : decodeOne x = .bad k) :
    utf8Run x = (0xFFFD :: (utf8Run (x.drop k)).1, (utf8Run (x.drop k)).2) := by
  cases x with
  | nil => simp [decodeOne] at h
  | cons a t =>
    obtain ⟨hk1, hk2⟩ := decodeOne_bad_bounds (a :: t) k h
    have ih := utf8RunF_fuel_irrel t.length ((a :: t).drop k).length ((a :: t).drop k)
      (by simp only [List.length_drop, List.length_cons] at *; omega) le_rfl
    simp [utf8Run, utf8RunF, h, ih]

/-- The pending bytes left by `utf8Run` are themselves undecodable:
running the decoder on them again emits nothing. -/
theorem utf8Run_stuck (x : List Nat) : utf8Run (utf8Run x).2 = ([], (utf8Run x).2) := by
  suffices H : ∀ (n : Nat) (x : List Nat), x.length ≤ n →
      utf8Run (utf8Run x).2 = ([], (utf8Run x).2) from H x.length x le_rfl
  intro n
  induction n with
  | zero =>
    intro x hx
    have hx0 : x = [] := by cases x <;> simp_all
    subst hx0
    rw [utf8Run_needMore [] rfl]
    exact utf8Run_needMore [] rfl
  | succ n ih =>
    intro x hx
    match h : decodeOne x with
    | .needMore =>
      rw [utf8Run_needMore x h]
      exact utf8Run_needMore x h
    | .emit c k =>
      have hb := decodeOne_emit_bounds x c k h
      rw [utf8Run_emit x c k h]
      exact ih _ (by simp only [List.length_drop]; omega)
    | .bad k =>
      have hb := decodeOne_bad_bounds x k h
      rw [utf8Run_bad x k h]
      exact ih _ (by simp only [List.length_drop]; omega)

/-- Chunk-composition law for the incremental decoder: decoding `x ++ y`
emits what `x` emits followed by what the pending bytes of `x` prepended
to `y` emit; the final pending state is that of the second run. -/
theorem utf8Run_append (x y : List Nat) :
    utf8Run (x ++ y) =
      ((utf8Run x).1 ++ (utf8Run ((utf8Run x).2 ++ y)).1,
       (utf8Run ((utf8Run x).2 ++ y)).2) := by
  suffices H : ∀ (n : Nat) (x : List Nat), x.length ≤ n →
      utf8Run (x ++ y) =
        ((utf8Run x).1 ++ (utf8Run ((utf8Run x).2 ++ y)).1,
         (utf8Run ((utf8Run x).2 ++ y)).2) from H x.length x le_rfl
  intro n
  induction n with
  | zero =>
    intro x hx
    have hx0 : x = [] := by cases x <;> simp_all
    subst hx0
    rw [utf8Run_needMore [] rfl]
    simp
  | succ n ih =>
    intro x hx
    match h : decodeOne x with
    | .needMore =>
      rw [utf8Run_needMore x h]
      simp
    | .emit c k =>
      have hb := decodeOne_emit_bounds x c k h
      have hs : decodeOne (x ++ y) = .emit c k := by
        rw [decodeOne_stable x y (by simp [h])]; exact h
      rw [utf8Run_emit x c k h, utf8Run_emit (x ++ y) c k hs,
          List.drop_append_of_le_length hb.2,
          ih _ (by simp only [List.length_drop]; omega)]
      simp
    | .bad k =>
      have hb := decodeOne_bad_bounds x k h
      have hs : decodeOne (x ++ y) = .bad k := by
        rw [decodeOne_stable x y (by simp [h])]; exact h
      rw [utf8Run_bad x k h, utf8Run_bad (x ++ y) k hs,
          List.drop_append_of_le_length hb.2,
          ih _ (by simp only [List.length_drop]; omega)]
      simp

theorem splitBB_bb (r : List Nat) :
    splitBB (10 :: 10 :: r) = ([] :: (splitBB r).1, (splitBB r).2) := by
  simp [splitBB]

theorem splitBB_cons_none (c d : Nat) (r : List Nat) (hcd : ¬(c = 10 ∧ d = 10))
    (hs : (splitBB (d :: r)).1 = []) :
    splitBB (c :: d :: r) = ([], c :: (splitBB (d :: r)).2) := by
  simp [splitBB, hcd, hs]

theorem splitBB_cons_some (c d : Nat) (r f : List Nat) (ft : List (List Nat))
    (hcd : ¬(c = 10 ∧ d = 10)) (hs : (splitBB (d :: r)).1 = f :: ft) :
    splitBB (c :: d :: r) = ((c :: f) :: ft, (splitBB (d :: r)).2) := by
  simp [splitBB, hcd, hs]

theorem splitBB_no_frame (x : List Nat) (h : (splitBB x).1 = []) :
    (splitBB x).2 = x := by
  match x with
  | [] => rfl
  | [c] => rfl
  | c :: d :: r =>
    by_cases hcd : c = 10 ∧ d = 10
    · obtain ⟨hc, hd⟩ := hcd
      subst hc; subst hd
      rw [splitBB_bb] at h
      simp at h
    · match hs : (splitBB (d :: r)).1 with
      | [] =>
        rw [splitBB_cons_none c d r hcd hs]
        have := splitBB_no_frame (d :: r) hs
        simp [this]
      | f :: ft =>
        rw [splitBB_cons_some c d r f ft hcd hs] at h
        simp at h

theorem splitBB_rem_no_frame (x : List Nat) : (splitBB (splitBB x).2).1 = [] := by
  match x with
  | [] => rfl
  | [c] => rfl
  | c :: d :: r =>
    by_cases hcd : c = 10 ∧ d = 10
    · obtain ⟨hc, hd⟩ := hcd
      subst hc; subst hd
      rw [splitBB_bb]
      exact splitBB_rem_no_frame r
    · match hs : (splitBB (d :: r)).1 with
      | [] =>
        have h2 := splitBB_no_frame (d :: r) hs
        rw [splitBB_cons_none c d r hcd hs]
        simp only [h2]
        rw [splitBB_cons_none c d r hcd hs]
      | f :: ft =>
        rw [splitBB_cons_some c d r f ft hcd hs]
        exact splitBB_rem_no_frame (d :: r)

theorem splitBB_stuck (x : List Nat) : splitBB (splitBB x).2 = ([], (splitBB x).2) := by
  have h1 := splitBB_rem_no_frame x
  have h2 := splitBB_no_frame _ h1
  have h3 : splitBB (splitBB x).2 = ((splitBB (splitBB x).2).1, (splitBB (splitBB x).2).2) := rfl
  rw [h3, h1, h2]

theorem splitBB_append (x y : List Nat) :
    splitBB (x ++ y) =
      ((splitBB x).1 ++ (splitBB ((splitBB x).2 ++ y)).1,
       (splitBB ((splitBB x).2 ++ y)).2) := by
  match x with
  | [] => simp [splitBB]
  | [c] => simp [splitBB]
  | c :: d :: r =>
    have hL : (c :: d :: r) ++ y = c :: d :: (r ++ y) := by simp
    by_cases hcd : c = 10 ∧ d = 10
    · obtain ⟨hc, hd⟩ := hcd
      subst hc; subst hd
      have ih := splitBB_append r y
      rw [hL, splitBB_bb, splitBB_bb, ih]
      simp
    · have ih := splitBB_append (d :: r) y
      have ihL : (d :: r) ++ y = d :: (r ++ y) := by simp
      rw [ihL] at ih
      match hs : (splitBB (d :: r)).1 with
      | [] =>
        have h2 := splitBB_no_frame (d :: r) hs
        rw [hL, splitBB_cons_none c d r hcd hs]
        simp only [hs, List.nil_append, h2]
        simp [hL]
      | f :: ft =>
        simp only [hs] at ih
        have hs2 : (splitBB (d :: (r ++ y))).1 =
            f :: (ft ++ (splitBB ((splitBB (d :: r)).2 ++ y)).1) := by
          simp [ih]
        rw [hL, splitBB_cons_some c d (r ++ y) f
              (ft ++ (splitBB ((splitBB (d :: r)).2 ++ y)).1) hcd hs2,
            splitBB_cons_some c d r f ft hcd hs]
        simp [ih]

/-- The events of one frame are the parses of its data-line payloads. -/
theorem frameEvents_eq_payloads {α : Type} (parse : List Nat → Option α) (f : List Nat) :
    frameEvents parse f = (framePayloads f).filterMap parse := by
  unfold frameEvents framePayloads
  split_ifs with h1 h2
  · rfl
  · rfl
  · rw [List.filterMap_filterMap]
    unfold lineEvent
    congr 1
    funext line
    split_ifs <;> rfl

/-- Core composition lemma: from any quiescent state (pending bytes that
decode to nothing, buffer with no frame boundary), running the read loop
over a chunk list is the same as processing the concatenation of the
chunks in a single read. -/
theorem runChunks_join {α : Type} (parse : List Nat → Option α) :
    ∀ (cs : List (List Nat)) (st : PState),
      utf8Run st.pend = ([], st.pend) →
      splitBB st.buf = ([], st.buf) →
      runChunks parse st cs = stepChunk parse st cs.flatten
  | [], st, hp, hb => by
    simp only [runChunks, List.flatten_nil, stepChunk, List.append_nil, hp, hb]
    cases st
    simp
  | c :: cs, st, hp, hb => by
    have ih := runChunks_join parse cs (stepChunk parse st c).1
      (utf8Run_stuck (st.pend ++ c))
      (splitBB_stuck (st.buf ++ (utf8Run (st.pend ++ c)).1))
    have e1 : st.pend ++ (c ++ cs.flatten) = (st.pend ++ c) ++ cs.flatten :=
      (List.append_assoc _ _ _).symm
    have h1 : (utf8Run (st.pend ++ (c ++ cs.flatten))).1 =
        (utf8Run (st.pend ++ c)).1 ++
          (utf8Run ((utf8Run (st.pend ++ c)).2 ++ cs.flatten)).1 := by
      rw [e1, utf8Run_append]
    have h2 : (utf8Run (st.pend ++ (c ++ cs.flatten))).2 =
        (utf8Run ((utf8Run (st.pend ++ c)).2 ++ cs.flatten)).2 := by
      rw [e1, utf8Run_append]
    have e2 : st.buf ++ ((utf8Run (st.pend ++ c)).1 ++
          (utf8Run ((utf8Run (st.pend ++ c)).2 ++ cs.flatten)).1) =
        (st.buf ++ (utf8Run (st.pend ++ c)).1) ++
          (utf8Run ((utf8Run (st.pend ++ c)).2 ++ cs.flatten)).1 :=
      (List.append_assoc _ _ _).symm
    have h3 : (splitBB ((st.buf ++ (utf8Run (st.pend ++ c)).1) ++
          (utf8Run ((utf8Run (st.pend ++ c)).2 ++ cs.flatten)).1)).1 =
        (splitBB (st.buf ++ (utf8Run (st.pend ++ c)).1)).1 ++
          (splitBB ((splitBB (st.buf ++ (utf8Run (st.pend ++ c)).1)).2 ++
            (utf8Run ((utf8Run (st.pend ++ c)).2 ++ cs.flatten)).1)).1 := by
      rw [splitBB_append]
    have h4 : (splitBB ((st.buf ++ (utf8Run (st.pend ++ c)).1) ++
          (utf8Run ((utf8Run (st.pend ++ c)).2 ++ cs.flatten)).1)).2 =
        (splitBB ((splitBB (st.buf ++ (utf8Run (st.pend ++ c)).1)).2 ++
          (utf8Run ((utf8Run (st.pend ++ c)).2 ++ cs.flatten)).1)).2 := by
      rw [splitBB_append]
    simp only [stepChunk] at ih
    simp only [runChunks, ih, List.flatten_cons, stepChunk, h1, h2, e2, h3, h4]
    simp [List.map_append, List.flatten_append]

/-- Claim C3: chunk-split invariance of the frame decoder.  For every
byte stream, delivering it split into chunks at arbitrary boundaries
(including boundaries inside a frame's data line or in the middle of a
multi-byte character) produces exactly the same sequence of decoded
events as delivering the whole stream in one chunk: the carry-over text
buffer and the stateful incremental text decoding make the decoded
events a function of the concatenated bytes only. -/
theorem c3_chunk_split_invariance {α : Type} (parse : List Nat → Option α)
    (chunks : List (List Nat)) :
    processStream parse chunks = processStream parse [chunks.flatten] := by
  unfold processStream
  rw [runChunks_join parse chunks ⟨[], []⟩ (utf8Run_needMore [] rfl) rfl,
      runChunks_join parse [chunks.flatten] ⟨[], []⟩ (utf8Run_needMore [] rfl) rfl]
  simp

example : processStream (fun p => some p)
    [[100, 97, 116], [97, 58, 32, 195], [169, 10, 10, 100]] =
    [[0xE9]] := by decide

/-- One-shot factorization of `processStream`: the dispatched events are
exactly the events of the completed frames of the decoded concatenated
bytes; the trailing carry-over (a partial frame, if any) is discarded. -/
theorem processStream_factor {α : Type} (parse : List Nat → Option α)
    (chunks : List (List Nat)) :
    processStream parse chunks =
      ((splitBB (utf8Run chunks.flatten).1).1.map (frameEvents parse)).flatten := by
  unfold processStream
  rw [runChunks_join parse chunks ⟨[], []⟩ (utf8Run_needMore [] rfl) rfl]
  simp [stepChunk]

/-- The events of a stream are the successful parses of its data-line
payloads, in order. -/
theorem processStream_payloads {α : Type} (parse : List Nat → Option α)
    (chunks : List (List Nat)) :
    processStream parse chunks = (streamPayloads chunks).filterMap parse := by
  rw [processStream_factor]
  unfold streamPayloads
  induction (splitBB (utf8Run chunks.flatten).1).1 with
  | nil => rfl
  | cons f fs ih =>
    simp only [List.map_cons, List.flatten_cons, List.filterMap_append, ih,
      frameEvents_eq_payloads]

end StreamingClient

namespace Chat

/-- Joining a cons of strings appends the head to the joined tail. -/
theorem sJoin_cons (s : String) (l : List String) :
    String.join (s :: l) = s ++ String.join l := by
  simp [String.join_eq]
  rfl

/-- Trace invariant of the token batcher within one live session: the
displayed response followed by the pending buffer always equals the
initial displayed-plus-pending text followed by every token delivered
so far, and the session stays current. -/
theorem tTrace_invariant (s : Nat) : ∀ (ops : List TOp) (st : ChatState),
    st.currentSession = s →
    (ops.foldl (tStep s) st).currentSession = s ∧
    (ops.foldl (tStep s) st).streamingResponse ++
        (ops.foldl (tStep s) st).batcher.pendingTokens =
      st.streamingResponse ++ st.batcher.pendingTokens ++ String.join (tToks ops)
  | [], st, h => by
    have h0 : String.join ([] : List String) = "" := rfl
    simp [tToks, h, h0, String.append_empty]
  | .tok t :: r, st, h => by
    have ih := tTrace_invariant s r (onTokenH s t st) (by simp [onTokenH, h])
    simp only [List.foldl_cons, tStep] at ih ⊢
    refine ⟨ih.1, ?_⟩
    rw [ih.2]
    simp only [onTokenH, h, ne_eq, not_true_eq_false, if_false, ite_false]
    simp [tToks, sJoin_cons, String.append_assoc]
  | .flush :: r, st, h => by
    have hf : (flushH st).currentSession = s ∧
        (flushH st).streamingResponse ++ (flushH st).batcher.pendingTokens =
          st.streamingResponse ++ st.batcher.pendingTokens := by
      unfold flushH
      split_ifs with hp
      · simp [h, hp]
      · simp [h, String.append_empty]
    have ih := tTrace_invariant s r (flushH st) hf.1
    simp only [List.foldl_cons, tStep] at ih ⊢
    refine ⟨ih.1, ?_⟩
    rw [ih.2, hf.2]
    simp [tToks]

end Chat

/-- Claim C1: session isolation.  A handler bound to session `s` whose
session is no longer current mutates no state: `onToken`, `onStatus`,
`onComplete`'s post-await continuation (the comparison is re-evaluated
against the state current at resume time, so a session invalidated
during the history refetch performs no post-await state mutation),
`onError` and its banner-clearing timer are all identity on a stale
session, `onProgress` never mutates state, a flush after the reset
performed by a new submission changes no displayed text, and a new
submission always makes every previously minted session stale. -/
theorem c1_session_isolation (s : Nat) (tok status msg : String)
    (st stn : ChatState) (b : Bool)
    (hstale : st.currentSession ≠ s)
    (hmint : s ≤ stn.streamSessionId)
    (hstart : (handleSubmit stn b).2 = true) :
    onTokenH s tok st = st ∧
    onStatusH s status st = st ∧
    onProgressH s st = st ∧
    onCompleteResume s st = st ∧
    onErrorH s msg st = st ∧
    onErrorTimeoutH s st = st ∧
    (flushH { st with batcher := batcherReset st.batcher }).streamingResponse =
      st.streamingResponse ∧
    (handleSubmit stn b).1.currentSession ≠ s := by
  have hsub : ¬(trimEmpty stn.messageText ∨ b) := by
    intro hcond
    simp [handleSubmit, if_pos hcond] at hstart
  refine ⟨?_, ?_, rfl, ?_, ?_, ?_, ?_, ?_⟩
  · simp [onTokenH, hstale]
  · simp [onStatusH, hstale]
  · simp [onCompleteResume, hstale]
  · simp [onErrorH, hstale]
  · simp [onErrorTimeoutH, hstale]
  · simp [flushH, batcherReset]
  · simp only [handleSubmit, if_neg hsub]
    omega

/-- Witness for C1 at session 1, stale state `c1StA` (current session 2)
and a new submission from `c1StB`. -/
theorem c1_session_isolation_witness :
    onTokenH 1 "x" c1StA = c1StA ∧
    onStatusH 1 "generating" c1StA = c1StA ∧
    onProgressH 1 c1StA = c1StA ∧
    onCompleteResume 1 c1StA = c1StA ∧
    onErrorH 1 "boom" c1StA = c1StA ∧
    onErrorTimeoutH 1 c1StA = c1StA ∧
    (flushH { c1StA with batcher := batcherReset c1StA.batcher }).streamingResponse =
      c1StA.streamingResponse ∧
    (handleSubmit c1StB false).1.currentSession ≠ 1 :=
  c1_session_isolation 1 "x" "generating" "boom" c1StA c1StB false
    (by decide) (by decide) (by decide)

/-- Claim C2: token ordering under batching.  For every sequence of
tokens delivered to `onToken` within one live session, interleaved
arbitrarily with batcher flushes, the displayed response after the
final flush is exactly the concatenation of the tokens in arrival
order: batching only delays and merges adjacent deltas. -/
theorem c2_token_ordering (s : Nat) (ops : List TOp) (st0 : ChatState)
    (hsess : st0.currentSession = s)
    (hresp : st0.streamingResponse = "")
    (hpend : st0.batcher.pendingTokens = "") :
    ((ops ++ [TOp.flush]).foldl (tStep s) st0).streamingResponse =
      String.join (tToks ops) := by
  rw [List.foldl_append]
  have inv := tTrace_invariant s ops st0 hsess
  have hsum : (ops.foldl (tStep s) st0).streamingResponse ++
      (ops.foldl (tStep s) st0).batcher.pendingTokens = String.join (tToks ops) := by
    rw [inv.2, hresp, hpend]
    have he : ("" : String) ++ "" = "" := rfl
    rw [he]
    have : ∀ t : String, ("" : String) ++ t = t := fun t => by
      have := String.append_empty t
      cases t
      simp [String.append]
    exact this _
  simp only [List.foldl_cons, List.foldl_nil, tStep]
  unfold flushH
  split_ifs with hp
  · simp only []
    rw [← hsum, hp, String.append_empty]
  · exact hsum

/-- Witness for C2 on the spec's example token sequence, flushed at
arbitrary points. -/
theorem c2_token_ordering_witness :
    ((c2Ops ++ [TOp.flush]).foldl (tStep 1) c2St).streamingResponse =
      String.join (tToks c2Ops) :=
  c2_token_ordering 1 c2Ops c2St rfl rfl rfl

example :
    ((c2Ops ++ [TOp.flush]).foldl (tStep 1) c2St).streamingResponse =
      "Hello, world!" := by decide

/-- Claim C4 counterexample: the frame ':hb\ndata: x' contains a data
line whose payload parses successfully, yet the client dispatches no
event for it, because `processStream` tests `startsWith(':')` on the
whole frame and skips it — contradicting the claim that data lines in
a frame with comment lines are still parsed and dispatched. -/
theorem c4_counterexample :
    parseC4 [120] = some 7 ∧
    processStream parseC4
      [[58, 104, 98, 10, 100, 97, 116, 97, 58, 32, 120, 10, 10]] = [] :=
  ⟨rfl, by decide⟩

/-- Claim C4 (amended): lines beginning with ':' are never treated as
data; a frame whose first character is ':' is skipped in its entirety,
including any data lines it contains; in a frame that does not start
with ':' (and is not whitespace-only), every line is examined, so a
comment line after the first line is ignored while the frame's data
lines are still parsed and dispatched; and inserting a standalone
comment frame among the frames leaves the event sequence unchanged. -/
theorem c4_comment_handling {α : Type} (parse : List Nat → Option α)
    (line f g c : List Nat) (fs1 fs2 : List (List Nat))
    (hline : line.head? = some 58)
    (hf : f.head? = some 58)
    (hgw : g.all isWS = false)
    (hgh : g.head? ≠ some 58)
    (hc : c.head? = some 58) :
    lineEvent parse line = none ∧
    frameEvents parse f = [] ∧
    frameEvents parse g = (splitNL g).filterMap (lineEvent parse) ∧
    ((fs1 ++ c :: fs2).map (frameEvents parse)).flatten =
      ((fs1 ++ fs2).map (frameEvents parse)).flatten := by
  have hcomment : ∀ (w : List Nat), w.head? = some 58 → frameEvents parse w = [] := by
    intro w hw
    cases w with
    | nil => simp at hw
    | cons a r =>
      have ha : a = 58 := by simpa using hw
      subst ha
      have hall : (58 :: r).all isWS = false := by simp [List.all_cons, isWS]
      simp [frameEvents, hall]
  refine ⟨?_, hcomment f hf, ?_, ?_⟩
  · cases line with
    | nil => simp at hline
    | cons a r =>
      have ha : a = 58 := by simpa using hline
      subst ha
      simp [lineEvent, dataMarker, List.isPrefixOf]
  · simp [frameEvents, hgw, hgh]
  · simp [List.map_append, List.flatten_append, hcomment c hc]

/-- Witness for the amended C4: a concrete comment line, a comment-led
frame holding a parsable data line, a data frame with a trailing
comment line, and a comment frame inserted between two data frames. -/
theorem c4_comment_handling_witness :
    lineEvent parseC4 [58, 104] = none ∧
    frameEvents parseC4 [58, 104, 10, 100, 97, 116, 97, 58, 32, 120] = [] ∧
    frameEvents parseC4 [100, 97, 116, 97, 58, 32, 120, 10, 58, 104] =
      (splitNL [100, 97, 116, 97, 58, 32, 120, 10, 58, 104]).filterMap
        (lineEvent parseC4) ∧
    (([[100, 97, 116, 97, 58, 32, 120]] ++ [58, 104, 98] ::
        [[100, 97, 116, 97, 58, 32, 120]]).map (frameEvents parseC4)).flatten =
      (([[100, 97, 116, 97, 58, 32, 120]] ++
        [[100, 97, 116, 97, 58, 32, 120]]).map (frameEvents parseC4)).flatten :=
  c4_comment_handling parseC4 [58, 104]
    [58, 104, 10, 100, 97, 116, 97, 58, 32, 120]
    [100, 97, 116, 97, 58, 32, 120, 10, 58, 104]
    [58, 104, 98]
    [[100, 97, 116, 97, 58, 32, 120]] [[100, 97, 116, 97, 58, 32, 120]]
    (by decide) (by decide) (by decide) (by decide) (by decide)

/-- Claim C5: abort silence.  The `AbortError` branch of the catch block
performs no handler call (in particular `onError` is never invoked by an
abort), a run ended by abort surfaces exactly the calls already
dispatched and nothing more, the promise still settles (it rejects with
the rethrown abort error, surfacing nothing to the UI handlers), and
`isStreaming()` is false immediately after `abort()` returns. -/
theorem c5_abort_silence (tms : Nat) (parse : List Nat → Option SEvent)
    (chunks : List (List Nat)) (c : ClientCtrl) :
    catchCalls tms RunEnd.abortError = [] ∧
    streamMessageCalls tms parse chunks RunEnd.abortError =
      (processStream parse chunks).filterMap handleEvent ∧
    runRejects RunEnd.abortError = true ∧
    isStreaming (clientAbort c) = false := by
  refine ⟨rfl, ?_, rfl, ?_⟩
  · simp [streamMessageCalls, catchCalls]
  · rcases c with ⟨_ | _⟩ <;> rfl

/-- Claim C6: timeout classification.  When the composite signal's
timeout ends the run (no manual abort) and the stream had produced no
error call before that, exactly one `onError` call is made, its payload
is timeout-classified (`code = TIMEOUT`) and recoverable, and the
`streamMessage` promise still rejects. -/
theorem c6_timeout_classification (tms : Nat) (parse : List Nat → Option SEvent)
    (chunks : List (List Nat))
    (hpre : ((processStream parse chunks).filterMap handleEvent).countP isErrCall = 0) :
    (streamMessageCalls tms parse chunks RunEnd.timeoutError).countP isErrCall = 1 ∧
    (streamMessageCalls tms parse chunks RunEnd.timeoutError).filter isErrCall =
      [HCall.onError (EData.errorD
        ("Request timed out after " ++ toString (tms / 1000) ++ " seconds")
        "TIMEOUT" true)] ∧
    runRejects RunEnd.timeoutError = true := by
  have hnil : ((processStream parse chunks).filterMap handleEvent).filter isErrCall = [] := by
    rw [List.filter_eq_nil_iff]
    intro a ha
    have := List.countP_eq_zero.mp hpre a ha
    simpa using this
  refine ⟨?_, ?_, rfl⟩
  · unfold streamMessageCalls
    rw [List.countP_append, hpre]
    rfl
  · unfold streamMessageCalls
    rw [List.filter_append, hnil]
    rfl

/-- Witness for C6 with the default 30-second timeout and a stream that
delivered no error event before timing out. -/
theorem c6_timeout_classification_witness :
    (streamMessageCalls 30000 (fun _ => none) [] RunEnd.timeoutError).countP isErrCall = 1 ∧
    (streamMessageCalls 30000 (fun _ => none) [] RunEnd.timeoutError).filter isErrCall =
      [HCall.onError (EData.errorD
        ("Request timed out after " ++ toString (30000 / 1000) ++ " seconds")
        "TIMEOUT" true)] ∧
    runRejects RunEnd.timeoutError = true :=
  c6_timeout_classification 30000 (fun _ => none) [] (by decide)

/-- Claim C7: malformed-frame resilience.  The dispatched events of any
stream are exactly the successful parses of its data-line payloads in
order, so a payload on which `JSON.parse` fails contributes no event
(and in particular no `onError` call), does not abort the read loop,
and every other valid event is still decoded and delivered in order:
a stream whose payload list splits around one unparsable payload
delivers exactly the events of the payloads before and after it. -/
theorem c7_malformed_resilience {α : Type} (parse : List Nat → Option α)
    (chunks : List (List Nat)) (pre : List (List Nat)) (bad : List Nat)
    (post : List (List Nat))
    (hsplit : streamPayloads chunks = pre ++ bad :: post)
    (hbad : parse bad = none) :
    processStream parse chunks = pre.filterMap parse ++ post.filterMap parse := by
  rw [processStream_payloads, hsplit]
  simp [List.filterMap_append, List.filterMap_cons, hbad]

/-- Witness for C7: a stream with a corrupt payload 'x' between two
valid payloads '1' delivers exactly the two valid events. -/
theorem c7_malformed_resilience_witness :
    processStream parseC7
      [[100, 97, 116, 97, 58, 32, 49, 10, 100, 97, 116, 97, 58, 32, 120, 10, 10,
        100, 97, 116, 97, 58, 32, 49, 10, 10]] =
      [[49]].filterMap parseC7 ++ [[49]].filterMap parseC7 :=
  c7_malformed_resilience parseC7
    [[100, 97, 116, 97, 58, 32, 49, 10, 100, 97, 116, 97, 58, 32, 120, 10, 10,
      100, 97, 116, 97, 58, 32, 49, 10, 10]]
    [[49]] [120] [[49]] (by decide) (by decide)

example :
    processStream parseC7
      [[100, 97, 116, 97, 58, 32, 49, 10, 100, 97, 116, 97, 58, 32, 120, 10, 10,
        100, 97, 116, 97, 58, 32, 49, 10, 10]] = [1, 1] := by decide

/-- Events of a single-chunk stream, factored through decoding and
frame splitting. -/
theorem processStream_single {α : Type} (parse : List Nat → Option α) (z : List Nat) :
    processStream parse [z] =
      ((splitBB (utf8Run z).1).1.map (frameEvents parse)).flatten := by
  rw [processStream_factor]
  simp

/-- Claim C8: end-of-stream-driven resolution.  Decoding a prefix `x`
that ends cleanly at a frame boundary (for example one carrying a
`complete` or `error` protocol event) never terminates processing: the
events of any continuation `y` are all still decoded and dispatched
after `x`'s events, and the run only ends when the chunks end; a
trailing continuation `t` that completes no frame (a buffered partial
frame at end-of-stream) is discarded and contributes no events. -/
theorem c8_end_of_stream_resolution {α : Type} (parse : List Nat → Option α)
    (x y t : List Nat)
    (hx2 : (utf8Run x).2 = [])
    (hxb : (splitBB (utf8Run x).1).2 = [])
    (ht : (splitBB (utf8Run t).1).1 = []) :
    processStream parse [x ++ y] = processStream parse [x] ++ processStream parse [y] ∧
    processStream parse [x ++ t] = processStream parse [x] := by
  have h1 : ∀ z : List Nat, (utf8Run (x ++ z)).1 = (utf8Run x).1 ++ (utf8Run z).1 := by
    intro z
    rw [utf8Run_append, hx2]
    simp
  have h2 : ∀ w : List Nat, (splitBB ((utf8Run x).1 ++ w)).1 =
      (splitBB (utf8Run x).1).1 ++ (splitBB w).1 := by
    intro w
    rw [splitBB_append, hxb]
    simp
  constructor
  · rw [processStream_single, processStream_single, processStream_single,
        h1 y, h2]
    simp [List.map_append, List.flatten_append]
  · rw [processStream_single, processStream_single, h1 t, h2, ht]
    simp

/-- Witness for C8: a frame carrying a `complete` event followed by a
further `token` frame that is still dispatched, and by a trailing
partial frame that is discarded. -/
theorem c8_end_of_stream_resolution_witness :
    processStream parseC8
        [[100, 97, 116, 97, 58, 32, 99, 10, 10] ++ [100, 97, 116, 97, 58, 32, 107, 10, 10]] =
      processStream parseC8 [[100, 97, 116, 97, 58, 32, 99, 10, 10]] ++
        processStream parseC8 [[100, 97, 116, 97, 58, 32, 107, 10, 10]] ∧
    processStream parseC8
        [[100, 97, 116, 97, 58, 32, 99, 10, 10] ++ [100, 97, 116, 97, 58, 32, 112]] =
      processStream parseC8 [[100, 97, 116, 97, 58, 32, 99, 10, 10]] :=
  c8_end_of_stream_resolution parseC8
    [100, 97, 116, 97, 58, 32, 99, 10, 10]
    [100, 97, 116, 97, 58, 32, 107, 10, 10]
    [100, 97, 116, 97, 58, 32, 112]
    (by decide) (by decide) (by decide)

example :
    processStream parseC8
      [[100, 97, 116, 97, 58, 32, 99, 10, 10, 100, 97, 116, 97, 58, 32, 107, 10, 10,
        100, 97, 116, 97, 58, 32, 112]] =
      [⟨"complete", EData.completeD 0 5 "groq" "ok", "t0"⟩,
       ⟨"token", EData.str "k", "t1"⟩] := by decide

/-- Claim C9: the exported `StreamEventType` object includes 'sources',
a type absent from the spec's six event types, and `handleEvent` on an
event of type 'sources' invokes none of the six handlers: the event
falls to the default branch, which only logs a warning, and is
dropped. -/
theorem c9_sources_event_dropped :
    "sources" ∈ StreamEventTypeVals ∧
    ∀ (d : EData) (ts : String),
      handleEvent ⟨"sources", d, ts⟩ = none := by
  refine ⟨by simp [StreamEventTypeVals], fun d ts => rfl⟩

/-- Claim C10: submission guard.  When the trimmed message is empty or
a stream is already in progress, `handleSubmit` returns early with the
state untouched — no session counter increment, no batcher reset, no
clearing of the displayed response — and does not call
`streamMessage`. -/
theorem c10_submit_guard (st : ChatState) (b : Bool)
    (h : trimEmpty st.messageText = true ∨ b = true) :
    handleSubmit st b = (st, false) := by
  unfold handleSubmit
  rcases h with h | h
  · rw [if_pos (Or.inl h)]
  · subst h
    rw [if_pos (Or.inr rfl)]

/-- Witness for C10 on a whitespace-only message with no stream in
progress. -/
theorem c10_submit_guard_witness :
    handleSubmit c10St false = (c10St, false) :=
  c10_submit_guard c10St false (Or.inl (by decide))
